import Mathlib

/-!
Verification of kdeconnect-rs core components against its specification.

Shallow embedding: the relevant Rust functions are translated into Lean
definitions.  Opaque runtime artifacts (IP addresses, mpsc senders, plugin
repository instances) are represented by `Nat` identity tokens; byte buffers
are `List Nat` with elements below 256.
-/

set_option autoImplicit false

namespace KdeconnectRs

/-! ## Device manager actor (src/kdeconnect/src/device/manager.rs)

A device record as held by `DeviceManagerActor.devices : HashMap<String, Device>`.
`remote_ip`, `tx` and `plugin_repo` are identity tokens for the `IpAddr`, the
outbox `mpsc::Sender` and the `Arc<PluginRepository>` respectively. -/

structure Device where
  name : String
  remote_ip : Nat
  conn_id : Nat
  tx : Nat
  plugin_repo : Nat
  deriving Repr, DecidableEq

/-- Actor state: the device map (association list with unique keys, standing
for the `HashMap`) plus the published `active_device_count` atomic. -/
structure ManagerState where
  devices : List (String × Device)
  active_device_count : Nat
  deriving Repr, DecidableEq

/-- Source `self.devices.contains_key(&id)`. -/
def containsDevice (m : List (String × Device)) (id : String) : Bool :=
  m.any (fun p => p.1 == id)

/-- Source `self.devices.get(&id)`. -/
def getDevice (m : List (String × Device)) (id : String) : Option Device :=
  (m.find? (fun p => p.1 == id)).map Prod.snd

/-- The in-place mutation of `AddDevice` on an existing entry:
`device.remote_ip = ip; device.conn_id = conn_id; device.tx = tx;`
(`name` and `plugin_repo` untouched), applied to the entry whose key is `id`. -/
def updEntry (id : String) (ip conn_id tx : Nat) (p : String × Device) : String × Device :=
  if p.1 == id then (p.1, { p.2 with remote_ip := ip, conn_id := conn_id, tx := tx }) else p

/-- Source `Message::AddDevice` branch of `DeviceManagerActor::handle_message`:
if the id is present, replace `remote_ip`, `conn_id` and `tx` in place
(keeping `name` and `plugin_repo`); otherwise insert a fresh record whose
`plugin_repo` is the newly constructed repository (token `freshRepo`).
Afterwards `update_active_device_count` stores `devices.len()`. -/
def addDevice (st : ManagerState) (id name : String) (ip conn_id tx freshRepo : Nat) :
    ManagerState :=
  let devices :=
    if containsDevice st.devices id then
      st.devices.map (updEntry id ip conn_id tx)
    else
      st.devices ++
        [(id, { name := name, remote_ip := ip, conn_id := conn_id, tx := tx,
                plugin_repo := freshRepo })]
  { devices := devices, active_device_count := devices.length }

/-- Source `Message::RemoveDevice` branch: remove the entry only when it exists and
its stored `conn_id` equals the message's `conn_id` (stale removals fenced);
only then is the active count updated. -/
def removeDevice (st : ManagerState) (id : String) (conn_id : Nat) : ManagerState :=
  match getDevice st.devices id with
  | some d =>
    if d.conn_id == conn_id then
      let devices := st.devices.filter (fun p => !(p.1 == id))
      { devices := devices, active_device_count := devices.length }
    else st
  | none => st

/-- Source `Message::SendPacket` branch.  `txAlive t` models whether the outbox
channel with token `t` still has a live receiver (`tx.send` errors otherwise).
Returns the state (unchanged by the code), the list of `(tx token, packet)`
deliveries performed, and the list of error-log lines emitted. -/
def handleSendPacket {P : Type} (st : ManagerState) (txAlive : Nat → Bool)
    (device_id : Option String) (packet : P) :
    ManagerState × List (Nat × P) × List String :=
  match device_id with
  | some id =>
    match getDevice st.devices id with
    | some d =>
      if txAlive d.tx then (st, [(d.tx, packet)], [])
      else (st, [], ["Failed to send packet to device " ++ d.name])
    | none => (st, [], [])
  | none =>
    (st,
     st.devices.filterMap (fun p => if txAlive p.2.tx then some (p.2.tx, packet) else none),
     st.devices.filterMap (fun p =>
       if txAlive p.2.tx then none else some ("Failed to send packet to device " ++ p.2.name)))

/-! Helper lemmas about the device map. -/

theorem find?_eq_none_of_not_contains (m : List (String × Device)) (id : String)
    (h : containsDevice m id = false) :
    m.find? (fun p => p.1 == id) = none := by
  induction m with
  | nil => rfl
  | cons p t ih =>
    simp only [containsDevice, List.any_cons, Bool.or_eq_false_iff] at h
    simp [List.find?_cons, h.1, ih h.2]

theorem filter_id_of_not_contains (m : List (String × Device)) (id : String)
    (h : containsDevice m id = false) :
    m.filter (fun p => !(p.1 == id)) = m := by
  induction m with
  | nil => rfl
  | cons p t ih =>
    simp only [containsDevice, List.any_cons, Bool.or_eq_false_iff] at h
    simp [List.filter_cons, h.1, ih h.2]

theorem find?_append_left_none {α : Type} (l₁ l₂ : List α) (p : α → Bool)
    (h : l₁.find? p = none) : (l₁ ++ l₂).find? p = l₂.find? p := by
  induction l₁ with
  | nil => rfl
  | cons a t ih =>
    rw [List.find?_cons] at h
    rcases hc : p a with _ | _
    · rw [List.cons_append, List.find?_cons, hc]
      exact ih (by rwa [hc] at h)
    · rw [hc] at h; exact absurd h (by simp)

theorem countP_id_eq_zero (m : List (String × Device)) (id : String)
    (h : containsDevice m id = false) :
    m.countP (fun p => p.1 == id) = 0 := by
  induction m with
  | nil => rfl
  | cons p t ih =>
    simp only [containsDevice, List.any_cons, Bool.or_eq_false_iff] at h
    rw [List.countP_cons, h.1, ih h.2]; simp

theorem updEntry_fst (id : String) (ip conn_id tx : Nat) (p : String × Device) :
    (updEntry id ip conn_id tx p).1 = p.1 := by
  by_cases h : (p.1 == id) = true <;> simp [updEntry, h]

theorem map_updEntry_of_not_contains (m : List (String × Device)) (id : String)
    (ip conn_id tx : Nat) (h : containsDevice m id = false) :
    m.map (updEntry id ip conn_id tx) = m := by
  induction m with
  | nil => rfl
  | cons p t ih =>
    simp only [containsDevice, List.any_cons, Bool.or_eq_false_iff] at h
    rw [List.map_cons, updEntry, if_neg (by simp [h.1]), ih h.2]

theorem containsDevice_map_updEntry (m : List (String × Device)) (id id' : String)
    (ip conn_id tx : Nat) :
    containsDevice (m.map (updEntry id ip conn_id tx)) id' = containsDevice m id' := by
  induction m with
  | nil => rfl
  | cons p t ih =>
    simp only [containsDevice, List.map_cons, List.any_cons, updEntry_fst]
    simp only [containsDevice] at ih
    rw [ih]

theorem getDevice_map_updEntry (m : List (String × Device)) (id : String)
    (ip conn_id tx : Nat) :
    getDevice (m.map (updEntry id ip conn_id tx)) id =
      (getDevice m id).map (fun d => { d with remote_ip := ip, conn_id := conn_id, tx := tx }) := by
  induction m with
  | nil => rfl
  | cons p t ih =>
    by_cases h : (p.1 == id) = true
    · simp [getDevice, List.find?_cons, updEntry, h]
    · rw [List.map_cons]
      have hfst : (updEntry id ip conn_id tx p).1 = p.1 := updEntry_fst id ip conn_id tx p
      rw [getDevice, List.find?_cons, hfst]
      simp only [h, Bool.false_eq_true, if_false]
      rw [getDevice, List.find?_cons]
      simp only [h, Bool.false_eq_true, if_false]
      exact ih

theorem countP_map_updEntry (m : List (String × Device)) (id id' : String)
    (ip conn_id tx : Nat) :
    (m.map (updEntry id ip conn_id tx)).countP (fun p => p.1 == id') =
      m.countP (fun p => p.1 == id') := by
  rw [List.countP_map]
  apply List.countP_congr
  intro p _
  simp [Function.comp, updEntry_fst]

theorem getDevice_isSome_of_contains (m : List (String × Device)) (id : String)
    (h : containsDevice m id = true) : ∃ d, getDevice m id = some d := by
  induction m with
  | nil => simp [containsDevice] at h
  | cons p t ih =>
    by_cases hp : (p.1 == id) = true
    · exact ⟨p.2, by simp [getDevice, List.find?_cons, hp]⟩
    · simp only [containsDevice, List.any_cons, hp, Bool.false_or] at h
      obtain ⟨d, hd⟩ := ih h
      refine ⟨d, ?_⟩
      rw [getDevice, List.find?_cons]
      simp only [hp, Bool.false_eq_true, if_false]
      exact hd

theorem countP_id_of_nodup (m : List (String × Device)) (id : String)
    (hnd : (m.map Prod.fst).Nodup) (hc : containsDevice m id = true) :
    m.countP (fun p => p.1 == id) = 1 := by
  induction m with
  | nil => simp [containsDevice] at hc
  | cons p t ih =>
    rw [List.map_cons, List.nodup_cons] at hnd
    cases hp : (p.1 == id) with
    | true =>
      have ht : containsDevice t id = false := by
        rw [containsDevice]
        apply List.any_eq_false.mpr
        intro x hx hxid
        exact hnd.1
          (List.mem_map.mpr ⟨x, hx, (eq_of_beq hxid).trans (eq_of_beq hp).symm⟩)
      rw [List.countP_cons, hp, countP_id_eq_zero t id ht]
      simp
    | false =>
      simp only [containsDevice, List.any_cons, hp, Bool.false_or] at hc
      rw [List.countP_cons, hp]
      simp only [Bool.false_eq_true, if_false, Nat.add_zero]
      exact ih hnd.2 hc

theorem getDevice_filter_self (m : List (String × Device)) (id : String) :
    getDevice (m.filter (fun p => !(p.1 == id))) id = none := by
  rw [getDevice, List.find?_eq_none.mpr, Option.map_none']
  intro x hx
  have := (List.mem_filter.mp hx).2
  simp at this
  simp [this]

theorem getDevice_filter_ne (m : List (String × Device)) (id k : String) (hk : k ≠ id) :
    getDevice (m.filter (fun p => !(p.1 == id))) k = getDevice m k := by
  induction m with
  | nil => rfl
  | cons p t ih =>
    cases hp : (p.1 == id) with
    | true =>
      have hpk : (p.1 == k) = false := by
        refine beq_eq_false_iff_ne.mpr ?_
        rw [eq_of_beq hp]
        exact fun h => hk h.symm
      rw [List.filter_cons]
      simp only [hp, Bool.not_true, Bool.false_eq_true, if_false]
      rw [ih]
      simp [getDevice, List.find?_cons, hpk]
    | false =>
      rw [List.filter_cons]
      simp only [hp, Bool.not_false, if_true]
      cases hpk : (p.1 == k) with
      | true => simp [getDevice, List.find?_cons, hpk]
      | false =>
        simp only [getDevice, List.find?_cons, hpk, Bool.false_eq_true, if_false]
        exact ih

theorem addDevice_devices_of_contains (st : ManagerState) (id name : String)
    (ip conn_id tx freshRepo : Nat) (h : containsDevice st.devices id = true) :
    (addDevice st id name ip conn_id tx freshRepo).devices =
      st.devices.map (updEntry id ip conn_id tx) := by
  simp [addDevice, h]

theorem addDevice_devices_of_not_contains (st : ManagerState) (id name : String)
    (ip conn_id tx freshRepo : Nat) (h : containsDevice st.devices id = false) :
    (addDevice st id name ip conn_id tx freshRepo).devices =
      st.devices ++
        [(id, { name := name, remote_ip := ip, conn_id := conn_id, tx := tx,
                plugin_repo := freshRepo })] := by
  simp [addDevice, h]

theorem getDevice_append_singleton (m : List (String × Device)) (id : String) (d : Device)
    (h : containsDevice m id = false) :
    getDevice (m ++ [(id, d)]) id = some d := by
  rw [getDevice, find?_append_left_none _ _ _ (find?_eq_none_of_not_contains m id h)]
  simp [List.find?]

/-- C1 (connection-id fencing): in any actor state whose device map has
unique keys, `AddDevice(id, …, c1)` then `AddDevice(id, …, c2)` with `c2 > c1`
leaves exactly one record for `id`, carrying `conn_id = c2` and the second
connection's `remote_ip` and `tx`, while preserving the plugin repository the
record had after the first `AddDevice`; a subsequent `RemoveDevice(id, c1)`
leaves the state unchanged, while `RemoveDevice(id, c2)` removes the record
for `id` and touches no other record. -/
theorem connection_id_fencing (st : ManagerState) (id n1 n2 : String)
    (ip1 ip2 c1 c2 tx1 tx2 r1 r2 : Nat)
    (hnd : (st.devices.map Prod.fst).Nodup) (hlt : c1 < c2) :
    ∃ d2 : Device,
      getDevice (addDevice (addDevice st id n1 ip1 c1 tx1 r1) id n2 ip2 c2 tx2 r2).devices id
          = some d2
      ∧ (addDevice (addDevice st id n1 ip1 c1 tx1 r1) id n2 ip2 c2 tx2 r2).devices.countP
          (fun p => p.1 == id) = 1
      ∧ d2.conn_id = c2 ∧ d2.remote_ip = ip2 ∧ d2.tx = tx2
      ∧ (getDevice (addDevice st id n1 ip1 c1 tx1 r1).devices id).map Device.plugin_repo
          = some d2.plugin_repo
      ∧ removeDevice (addDevice (addDevice st id n1 ip1 c1 tx1 r1) id n2 ip2 c2 tx2 r2) id c1
          = addDevice (addDevice st id n1 ip1 c1 tx1 r1) id n2 ip2 c2 tx2 r2
      ∧ getDevice (removeDevice (addDevice (addDevice st id n1 ip1 c1 tx1 r1) id n2 ip2 c2 tx2 r2)
            id c2).devices id = none
      ∧ ∀ k, k ≠ id →
          getDevice (removeDevice (addDevice (addDevice st id n1 ip1 c1 tx1 r1)
              id n2 ip2 c2 tx2 r2) id c2).devices k
            = getDevice (addDevice (addDevice st id n1 ip1 c1 tx1 r1)
                id n2 ip2 c2 tx2 r2).devices k := by
  set st1 := addDevice st id n1 ip1 c1 tx1 r1 with hst1
  set st2 := addDevice st1 id n2 ip2 c2 tx2 r2 with hst2
  cases hcont : containsDevice st.devices id with
  | false =>
    set D1 : Device :=
      { name := n1, remote_ip := ip1, conn_id := c1, tx := tx1, plugin_repo := r1 } with hD1
    set D2 : Device :=
      { name := n1, remote_ip := ip2, conn_id := c2, tx := tx2, plugin_repo := r1 } with hD2
    have h1 : st1.devices = st.devices ++ [(id, D1)] :=
      addDevice_devices_of_not_contains st id n1 ip1 c1 tx1 r1 hcont
    have hc1 : containsDevice st1.devices id = true := by
      rw [h1]; simp [containsDevice]
    have h2 : st2.devices = st.devices ++ [(id, D2)] := by
      rw [hst2, addDevice_devices_of_contains st1 id n2 ip2 c2 tx2 r2 hc1, h1,
        List.map_append, map_updEntry_of_not_contains st.devices id ip2 c2 tx2 hcont]
      simp [updEntry, hD1, hD2]
    have hget2 : getDevice st2.devices id = some D2 := by
      rw [h2]; exact getDevice_append_singleton st.devices id D2 hcont
    have hget1 : getDevice st1.devices id = some D1 := by
      rw [h1]; exact getDevice_append_singleton st.devices id D1 hcont
    refine ⟨D2, hget2, ?_, rfl, rfl, rfl, ?_, ?_, ?_, ?_⟩
    · rw [h2, List.countP_append, countP_id_eq_zero st.devices id hcont]
      simp [List.countP_cons]
    · rw [hget1]; rfl
    · rw [removeDevice, hget2]
      simp [Nat.ne_of_gt hlt]
    · rw [removeDevice, hget2]
      simp only [beq_self_eq_true, if_true]
      exact getDevice_filter_self st2.devices id
    · intro k hk
      rw [removeDevice, hget2]
      simp only [beq_self_eq_true, if_true]
      exact getDevice_filter_ne st2.devices id k hk
  | true =>
    obtain ⟨d0, hd0⟩ := getDevice_isSome_of_contains st.devices id hcont
    have h1 : st1.devices = st.devices.map (updEntry id ip1 c1 tx1) :=
      addDevice_devices_of_contains st id n1 ip1 c1 tx1 r1 hcont
    have hG1 : getDevice st1.devices id =
        some { d0 with remote_ip := ip1, conn_id := c1, tx := tx1 } := by
      rw [h1, getDevice_map_updEntry, hd0]; rfl
    have hc1 : containsDevice st1.devices id = true := by
      rw [h1, containsDevice_map_updEntry]; exact hcont
    have h2 : st2.devices = st1.devices.map (updEntry id ip2 c2 tx2) :=
      addDevice_devices_of_contains st1 id n2 ip2 c2 tx2 r2 hc1
    have hG2 : getDevice st2.devices id =
        some { d0 with remote_ip := ip2, conn_id := c2, tx := tx2 } := by
      rw [h2, getDevice_map_updEntry, hG1]; rfl
    refine ⟨{ d0 with remote_ip := ip2, conn_id := c2, tx := tx2 }, hG2, ?_, rfl, rfl, rfl,
      ?_, ?_, ?_, ?_⟩
    · rw [h2, countP_map_updEntry, h1, countP_map_updEntry]
      exact countP_id_of_nodup st.devices id hnd hcont
    · rw [hG1]; rfl
    · rw [removeDevice, hG2]
      simp [Nat.ne_of_gt hlt]
    · rw [removeDevice, hG2]
      simp only [beq_self_eq_true, if_true]
      exact getDevice_filter_self st2.devices id
    · intro k hk
      rw [removeDevice, hG2]
      simp only [beq_self_eq_true, if_true]
      exact getDevice_filter_ne st2.devices id k hk

/-- C1 witness: concrete run from the empty state. -/
theorem connection_id_fencing_witness :
    ∃ d2 : Device,
      getDevice (addDevice (addDevice ⟨[], 0⟩ "dev" "N1" 10 0 20 30) "dev" "N2" 11 1 21 31).devices
          "dev" = some d2
      ∧ (addDevice (addDevice ⟨[], 0⟩ "dev" "N1" 10 0 20 30) "dev" "N2" 11 1 21 31).devices.countP
          (fun p => p.1 == "dev") = 1
      ∧ d2.conn_id = 1 ∧ d2.remote_ip = 11 ∧ d2.tx = 21
      ∧ (getDevice (addDevice ⟨[], 0⟩ "dev" "N1" 10 0 20 30).devices "dev").map Device.plugin_repo
          = some d2.plugin_repo
      ∧ removeDevice (addDevice (addDevice ⟨[], 0⟩ "dev" "N1" 10 0 20 30) "dev" "N2" 11 1 21 31)
            "dev" 0
          = addDevice (addDevice ⟨[], 0⟩ "dev" "N1" 10 0 20 30) "dev" "N2" 11 1 21 31
      ∧ getDevice (removeDevice
            (addDevice (addDevice ⟨[], 0⟩ "dev" "N1" 10 0 20 30) "dev" "N2" 11 1 21 31)
            "dev" 1).devices "dev" = none
      ∧ ∀ k, k ≠ "dev" →
          getDevice (removeDevice
              (addDevice (addDevice ⟨[], 0⟩ "dev" "N1" 10 0 20 30) "dev" "N2" 11 1 21 31)
              "dev" 1).devices k
            = getDevice (addDevice (addDevice ⟨[], 0⟩ "dev" "N1" 10 0 20 30)
                "dev" "N2" 11 1 21 31).devices k :=
  connection_id_fencing ⟨[], 0⟩ "dev" "N1" "N2" 10 11 0 1 20 21 30 31 (by simp) (by decide)
/-- C10: a `SendPacket` with `device_id = Some(x)` where `x` is absent from
the device map is silently discarded: the state (device map and active count)
is unchanged, no outbox receives the packet, and no error line is logged. -/
theorem send_packet_absent_device {P : Type} (st : ManagerState) (txAlive : Nat → Bool)
    (x : String) (packet : P) (h : getDevice st.devices x = none) :
    handleSendPacket st txAlive (some x) packet = (st, [], []) := by
  simp [handleSendPacket, h]

/-- C10 witness: a state holding only device "a"; sending to absent "b". -/
theorem send_packet_absent_device_witness :
    handleSendPacket
        (⟨[("a", { name := "A", remote_ip := 1, conn_id := 0, tx := 2, plugin_repo := 3 })], 1⟩ :
          ManagerState)
        (fun _ => true) (some "b") (0 : Nat) =
      ((⟨[("a", { name := "A", remote_ip := 1, conn_id := 0, tx := 2, plugin_repo := 3 })], 1⟩ :
          ManagerState), [], []) :=
  send_packet_absent_device _ _ "b" 0 (by decide)

/-! ## Packets (src/kdeconnect/src/packet.rs) -/

/-- A JSON value (`serde_json::Value`). -/
inductive JVal where
  | null
  | bool (b : Bool)
  | num (n : Int)
  | str (s : String)
  | arr (xs : List JVal)
  | obj (fields : List (String × JVal))

def PACKET_TYPE_IDENTITY : String := "kdeconnect.identity"

def PACKET_TYPE_PAIR : String := "kdeconnect.pair"

/-- Source `NetworkPacket`: `type`, JSON `body`, millisecond timestamp `id`, and the
optional payload metadata (`payload_transfer_info` is just its `port`). -/
structure NetworkPacket where
  typ : String
  body : JVal
  id : Nat
  payload_size : Option Nat
  payload_transfer_info : Option Nat

/-- Source `NetworkPacket::new`; `now` is the value of `utils::unix_ts_ms()`. -/
def NetworkPacket.new (typ : String) (body : JVal) (now : Nat) : NetworkPacket :=
  { typ := typ, body := body, id := now, payload_size := none, payload_transfer_info := none }

/-- Source `NetworkPacket::new_pair`: the body is the serialization of
`PairPacket { pair }`. -/
def NetworkPacket.new_pair (pair : Bool) (now : Nat) : NetworkPacket :=
  NetworkPacket.new PACKET_TYPE_PAIR (JVal.obj [("pair", JVal.bool pair)]) now

/-! ## Plugin repository (src/kdeconnect/src/plugin/mod.rs) -/

/-- One element of `PluginRepository::plugins`: the plugin's inbound
capability set paired with the plugin instance (identity token). -/
structure PluginEntry where
  in_caps : List String
  plugin : Nat

/-- Source `PluginRepository::handle_packet`: walk the plugin list in registration
order; the first entry whose inbound capability set contains the packet type
gets `handle(packet)` called on it and the walk stops (its error, if any, is
propagated — `handlerOk pl` models whether plugin `pl`'s `handle` returns
`Ok`); if none matches the result is an error.  Returns the list of
`(plugin, packet)` invocations of `handle` performed and whether the overall
result was `Ok`. -/
def handle_packet (handlerOk : Nat → Bool) (plugins : List PluginEntry)
    (packet : NetworkPacket) : List (Nat × NetworkPacket) × Bool :=
  match plugins with
  | [] => ([], false)
  | e :: rest =>
    if e.in_caps.contains packet.typ then ([(e.plugin, packet)], handlerOk e.plugin)
    else handle_packet handlerOk rest packet

/-- C2 (capability routing): (a) every `handle` invocation goes to a plugin
registered with an inbound capability set containing the packet's type —
no plugin whose set excludes the type ever receives the packet; (b) when some
registered entry matches, exactly the first matching entry (in registration
order, as computed by `List.find?`) receives the packet, exactly once, and the
result is that plugin's `handle` result; (c) when no entry matches, nothing is
delivered and the result is an error. -/
theorem capability_routing (handlerOk : Nat → Bool) (plugins : List PluginEntry)
    (packet : NetworkPacket) :
    (∀ q ∈ (handle_packet handlerOk plugins packet).1,
        ∃ e ∈ plugins, q = (e.plugin, packet) ∧ e.in_caps.contains packet.typ = true)
    ∧ (∀ e, plugins.find? (fun e => e.in_caps.contains packet.typ) = some e →
        handle_packet handlerOk plugins packet = ([(e.plugin, packet)], handlerOk e.plugin))
    ∧ (plugins.find? (fun e => e.in_caps.contains packet.typ) = none →
        handle_packet handlerOk plugins packet = ([], false)) := by
  induction plugins with
  | nil => exact ⟨by simp [handle_packet], by simp [List.find?], by simp [handle_packet]⟩
  | cons e rest ih =>
    rcases hc : e.in_caps.contains packet.typ with _ | _
    · refine ⟨?_, ?_, ?_⟩
      · intro q hq
        rw [handle_packet, hc] at hq
        simp only [Bool.false_eq_true, if_false] at hq
        obtain ⟨e', he', hq', hcaps⟩ := ih.1 q hq
        exact ⟨e', List.mem_cons_of_mem e he', hq', hcaps⟩
      · intro e' hfind
        rw [List.find?_cons, hc] at hfind
        rw [handle_packet, hc]
        simp only [Bool.false_eq_true, if_false]
        exact ih.2.1 e' hfind
      · intro hfind
        rw [List.find?_cons, hc] at hfind
        rw [handle_packet, hc]
        simp only [Bool.false_eq_true, if_false]
        exact ih.2.2 hfind
    · refine ⟨?_, ?_, ?_⟩
      · intro q hq
        rw [handle_packet, hc] at hq
        simp only [if_true, List.mem_singleton] at hq
        exact ⟨e, List.mem_cons_self e rest, hq, hc⟩
      · intro e' hfind
        rw [List.find?_cons, hc] at hfind
        cases hfind
        rw [handle_packet, hc]
        simp
      · intro hfind
        rw [List.find?_cons, hc] at hfind
        cases hfind

/-- C2 witness: two plugins whose handlers succeed; a packet of the second
plugin's type is delivered exactly to the second plugin with an `Ok` result. -/
theorem capability_routing_witness :
    handle_packet (fun _ => true)
        [⟨["kdeconnect.battery"], 1⟩, ⟨["kdeconnect.clipboard"], 2⟩]
        (NetworkPacket.new "kdeconnect.clipboard" JVal.null 5) =
      ([(2, NetworkPacket.new "kdeconnect.clipboard" JVal.null 5)], true) :=
  (capability_routing (fun _ => true)
      [⟨["kdeconnect.battery"], 1⟩, ⟨["kdeconnect.clipboard"], 2⟩]
      (NetworkPacket.new "kdeconnect.clipboard" JVal.null 5)).2.1
    ⟨["kdeconnect.clipboard"], 2⟩ (by rfl)

/-! ## Steady-state connection loop, receive side (src/kdeconnect/src/main.rs,
`handle_conn`) -/

/-- What the receive branch of `handle_conn`'s select loop does with one
parsed line. -/
inductive ConnAction where
  | replyPair (reply : NetworkPacket)
  | dispatch (packet : NetworkPacket)
  | logParseError

/-- The receive branch of `handle_conn`: parse the line as a `NetworkPacket`
(`parsed = none` models a parse error, which is only logged); a packet whose
type is `kdeconnect.pair` is answered directly with `new_pair(true)` (stamped
with the current time `now`) and is not dispatched; every other packet is
dispatched to the device handle (and from there to the plugin repository). -/
def processLine (now : Nat) (parsed : Option NetworkPacket) : ConnAction :=
  match parsed with
  | some p =>
    if p.typ = PACKET_TYPE_PAIR then ConnAction.replyPair (NetworkPacket.new_pair true now)
    else ConnAction.dispatch p
  | none => ConnAction.logParseError

/-- C9: every received packet of type `kdeconnect.pair` — whatever its body,
including `{"pair": false}` — is answered with the packet
`{"type":"kdeconnect.pair","body":{"pair":true}}` stamped with the fresh
timestamp `now`, and is never dispatched to any plugin. -/
theorem pair_auto_accept (p : NetworkPacket) (now : Nat) (h : p.typ = PACKET_TYPE_PAIR) :
    processLine now (some p) = ConnAction.replyPair (NetworkPacket.new_pair true now)
    ∧ (NetworkPacket.new_pair true now).typ = "kdeconnect.pair"
    ∧ (NetworkPacket.new_pair true now).body = JVal.obj [("pair", JVal.bool true)]
    ∧ (NetworkPacket.new_pair true now).id = now
    ∧ ∀ q, processLine now (some p) ≠ ConnAction.dispatch q := by
  refine ⟨by simp [processLine, h], rfl, rfl, rfl, ?_⟩
  intro q
  simp [processLine, h]

/-- C9 witness: a pair packet with body `{"pair": false}` still gets the
`{"pair": true}` reply and is not dispatched. -/
theorem pair_auto_accept_witness :
    processLine 7 (some
        { typ := "kdeconnect.pair", body := JVal.obj [("pair", JVal.bool false)], id := 3,
          payload_size := none, payload_transfer_info := none })
      = ConnAction.replyPair (NetworkPacket.new_pair true 7)
    ∧ (NetworkPacket.new_pair true 7).typ = "kdeconnect.pair"
    ∧ (NetworkPacket.new_pair true 7).body = JVal.obj [("pair", JVal.bool true)]
    ∧ (NetworkPacket.new_pair true 7).id = 7
    ∧ ∀ q, processLine 7 (some
        { typ := "kdeconnect.pair", body := JVal.obj [("pair", JVal.bool false)], id := 3,
          payload_size := none, payload_transfer_info := none })
      ≠ ConnAction.dispatch q :=
  pair_auto_accept
    { typ := "kdeconnect.pair", body := JVal.obj [("pair", JVal.bool false)], id := 3,
      payload_size := none, payload_transfer_info := none } 7 rfl

/-! ## Outbound payload server (src/kdeconnect/src/main.rs, `serve_payload`)

`serve_payload` runs `loop { accept; spawn(tls-accept; write_all; flush) }`
under a 60-second timeout.  The embedding takes the finite sequence of accept
results that arrive inside the 60-second window, in order.  `conn i tlsOk`
is an accepted TCP connection (token `i`) whose TLS server upgrade succeeds
iff `tlsOk`; `err` is an `accept` error, which breaks the loop. -/

inductive AcceptEvent where
  | conn (i : Nat) (tlsOk : Bool)
  | err

def AcceptEvent.isConn : AcceptEvent → Bool
  | AcceptEvent.conn _ _ => true
  | AcceptEvent.err => false

/-- Source `serve_payload`: returns, in order, the `(connection, bytes)` pairs that
get the full payload written and flushed.  Every accepted connection whose TLS
upgrade succeeds is served `data` in full; an accept error stops the loop;
otherwise the loop keeps accepting until the 60-second timeout (the end of the
event list). -/
def serve_payload (data : List Nat) : List AcceptEvent → List (Nat × List Nat)
  | [] => []
  | AcceptEvent.conn i tlsOk :: rest =>
    (if tlsOk then [(i, data)] else []) ++ serve_payload data rest
  | AcceptEvent.err :: _ => []

/-- C3 counterexample: two connections arrive (with successful TLS upgrades)
within the 60-second window; the claim says only the first is served and the
task then exits, but the code's accept loop serves both. -/
theorem serve_payload_not_single_accept :
    serve_payload [7] [AcceptEvent.conn 0 true, AcceptEvent.conn 1 true]
        = [(0, [7]), (1, [7])]
    ∧ ¬ (serve_payload [7] [AcceptEvent.conn 0 true, AcceptEvent.conn 1 true]).length ≤ 1 := by
  constructor
  · rfl
  · decide

/-- C3 amended: the payload-serving task does not stop after the first
connection.  Within the 60-second window it serves the full payload bytes
(written and flushed) to every accepted connection whose TLS server upgrade
succeeds, in arrival order, stopping early only at an `accept` error; with no
events before the timeout nothing is served. -/
theorem serve_payload_serves_all_accepted (data : List Nat) (events : List AcceptEvent) :
    serve_payload data events =
      (events.takeWhile AcceptEvent.isConn).filterMap (fun e =>
        match e with
        | AcceptEvent.conn i true => some (i, data)
        | _ => none) := by
  induction events with
  | nil => rfl
  | cons e rest ih =>
    cases e with
    | conn i tlsOk =>
      cases tlsOk <;>
        simp [serve_payload, List.takeWhile, AcceptEvent.isConn, List.filterMap, ih]
    | err => rfl

/-! ## Payload cache (src/kdeconnect/src/cache.rs)

State: the in-memory LRU (`LruCache<String, Arc<Vec<u8>>>`, capacity 10,
most-recently-used first) and the on-disk files under the cache directory.
All operations run under the single mutex, so they are modelled as sequential
state transformers. -/

structure CacheState where
  lru : List (String × List Nat)
  disk : List (String × List Nat)
  deriving Repr, DecidableEq

/-- Association-list lookup (for both the LRU and the disk directory). -/
def lookupEntry (m : List (String × List Nat)) (k : String) : Option (List Nat) :=
  (m.find? (fun p => p.1 == k)).map Prod.snd

/-- Source `LruCache::get_mut` on a hit promotes the entry to most-recently-used. -/
def lruTouch (l : List (String × List Nat)) (k : String) (v : List Nat) :
    List (String × List Nat) :=
  (k, v) :: l.filter (fun p => !(p.1 == k))

/-- Source `LruCache::insert`: put the entry at the most-recently-used position
(replacing any entry with the same key) and drop the least-recently-used
entry beyond capacity 10. -/
def lruInsert (l : List (String × List Nat)) (k : String) (v : List Nat) :
    List (String × List Nat) :=
  ((k, v) :: l.filter (fun p => !(p.1 == k))).take 10

/-- Source `PayloadCache::get_internal`: LRU hit returns the cached buffer (promoting
it); otherwise read the file `cache_path.join(name)` — on success insert into
the LRU and return it, and a `NotFound` yields `None`. -/
def get_internal (s : CacheState) (name : String) : Option (List Nat) × CacheState :=
  match lookupEntry s.lru name with
  | some v => (some v, { s with lru := lruTouch s.lru name v })
  | none =>
    match lookupEntry s.disk name with
    | some data => (some data, { s with lru := lruInsert s.lru name data })
    | none => (none, s)

/-- Source `PayloadCache::get`: lock the mutex, run `get_internal`. -/
def cacheGet (s : CacheState) (name : String) : Option (List Nat) × CacheState :=
  get_internal s name

/-- Source `PayloadCache::put`: lock the mutex; if `get_internal` hits (memory or
disk), return without writing; otherwise insert into the LRU and write the
file. -/
def cachePut (s : CacheState) (name : String) (data : List Nat) : CacheState :=
  match get_internal s name with
  | (some _, s') => s'
  | (none, s') =>
    { lru := lruInsert s'.lru name data,
      disk := (name, data) :: s'.disk.filter (fun p => !(p.1 == name)) }

/-- C4 (write-once per name): for a name `n` not yet present (in memory or on
disk), `put(n, b1)` followed by `get(n)` yields `Some(b1)`; a subsequent
`put(n, b2)` with `b2 ≠ b1` is a no-op as a write: both the LRU entry and the
disk file for `n` still hold `b1`, and `get(n)` still yields `Some(b1)`. -/
theorem payload_cache_write_once (s : CacheState) (n : String) (b1 b2 : List Nat)
    (hl : lookupEntry s.lru n = none) (hd : lookupEntry s.disk n = none) (hne : b2 ≠ b1) :
    (cacheGet (cachePut s n b1) n).1 = some b1
    ∧ lookupEntry (cachePut (cachePut s n b1) n b2).lru n = some b1
    ∧ lookupEntry (cachePut (cachePut s n b1) n b2).disk n = some b1
    ∧ (cacheGet (cachePut (cachePut s n b1) n b2) n).1 = some b1 := by
  have h0 : get_internal s n = (none, s) := by
    rw [get_internal, hl, hd]
  have hs1 : cachePut s n b1 =
      { lru := lruInsert s.lru n b1,
        disk := (n, b1) :: s.disk.filter (fun p => !(p.1 == n)) } := by
    rw [cachePut, h0]
  have hlru1 : lookupEntry (cachePut s n b1).lru n = some b1 := by
    rw [hs1, lruInsert]
    cases s.lru.filter (fun p => !(p.1 == n)) <;>
      simp [List.take, lookupEntry, List.find?]
  have hget1 : get_internal (cachePut s n b1) n =
      (some b1, { cachePut s n b1 with lru := lruTouch (cachePut s n b1).lru n b1 }) := by
    rw [get_internal, hlru1]
  have hs2 : cachePut (cachePut s n b1) n b2 =
      { cachePut s n b1 with lru := lruTouch (cachePut s n b1).lru n b1 } := by
    rw [cachePut, hget1]
  refine ⟨?_, ?_, ?_, ?_⟩
  · rw [cacheGet, hget1]
  · rw [hs2]
    simp [lruTouch, lookupEntry, List.find?]
  · rw [hs2, hs1]
    simp [lookupEntry, List.find?]
  · rw [cacheGet, hs2]
    simp only [get_internal]
    simp [lruTouch, lookupEntry, List.find?]

/-- C4 witness: fresh cache already holding an unrelated entry. -/
theorem payload_cache_write_once_witness :
    (cacheGet (cachePut ⟨[("z", [9])], [("z", [9])]⟩ "n" [1, 2]) "n").1 = some [1, 2]
    ∧ lookupEntry (cachePut (cachePut ⟨[("z", [9])], [("z", [9])]⟩ "n" [1, 2]) "n" [3]).lru "n"
        = some [1, 2]
    ∧ lookupEntry (cachePut (cachePut ⟨[("z", [9])], [("z", [9])]⟩ "n" [1, 2]) "n" [3]).disk "n"
        = some [1, 2]
    ∧ (cacheGet (cachePut (cachePut ⟨[("z", [9])], [("z", [9])]⟩ "n" [1, 2]) "n" [3]) "n").1
        = some [1, 2] :=
  payload_cache_write_once ⟨[("z", [9])], [("z", [9])]⟩ "n" [1, 2] [3]
    (by decide) (by decide) (by decide)

/-! ## Payload fetch (src/kdeconnect/src/device/manager.rs,
`Message::FetchPayload` branch)

`wire` models the outcome of `ctx.tls_connect((remote_ip, port))` followed by
`read_to_end`: `some bytes` is the full byte sequence read until EOF, `none`
is a connect/TLS/read error.  The payload cache is threaded through to show
the fetch never touches it. -/

/-- The `FetchPayload` handler: reply `Err` if the device is absent; otherwise
connect to `(remote_ip, port)`, read to EOF, and reply `Ok(buf)` exactly when
`buf.len() == size`, `Err` otherwise.  Returns the reply and the (untouched)
payload cache. -/
def handleFetchPayload (st : ManagerState) (cache : CacheState) (device_id : String)
    (port size : Nat) (wire : Option (List Nat)) :
    Except String (List Nat) × CacheState :=
  match getDevice st.devices device_id with
  | none => (Except.error ("Device " ++ device_id ++ " not found"), cache)
  | some _ =>
    match wire with
    | none => (Except.error "Connection failed", cache)
    | some buf =>
      if buf.length = size then (Except.ok buf, cache)
      else
        (Except.error ("Payload size mismatch: " ++ toString buf.length ++
          " (fetched) != " ++ toString size ++ " (requested)"), cache)

/-- C5 (payload fetch length check): for a present device, the bytes read
until EOF are compared against `size`: the reply is `Ok(buffer)` exactly when
the number of bytes read equals `size`, and an error otherwise (including
connection failure); in every case — in particular the error cases — the
payload cache is not written by the fetch. -/
theorem fetch_payload_length_check (st : ManagerState) (cache : CacheState)
    (device_id : String) (port size : Nat) (wire : Option (List Nat))
    (hpresent : (getDevice st.devices device_id).isSome) :
    (handleFetchPayload st cache device_id port size wire).2 = cache
    ∧ (∀ buf, wire = some buf →
        ((handleFetchPayload st cache device_id port size wire).1 = Except.ok buf
          ↔ buf.length = size))
    ∧ (∀ buf, wire = some buf → buf.length ≠ size →
        ∃ e, (handleFetchPayload st cache device_id port size wire).1 = Except.error e)
    ∧ (wire = none →
        ∃ e, (handleFetchPayload st cache device_id port size wire).1 = Except.error e) := by
  obtain ⟨d, hd⟩ := Option.isSome_iff_exists.mp hpresent
  refine ⟨?_, ?_, ?_, ?_⟩
  · simp only [handleFetchPayload.eq_def, hd]
    cases wire with
    | none => rfl
    | some buf => by_cases hlen : buf.length = size <;> simp [hlen]
  · intro buf hw
    simp only [handleFetchPayload.eq_def, hd, hw]
    by_cases hlen : buf.length = size <;> simp [hlen]
  · intro buf hw hlen
    simp only [handleFetchPayload.eq_def, hd, hw]
    simp [hlen]
  · intro hw
    simp only [handleFetchPayload.eq_def, hd, hw]
    simp

/-- C5 witness: device present, 3 declared bytes; a 3-byte read replies `Ok`,
and a cache is never written. -/
theorem fetch_payload_length_check_witness :
    (handleFetchPayload
          ⟨[("dev", { name := "A", remote_ip := 1, conn_id := 0, tx := 2, plugin_repo := 3 })], 1⟩
          ⟨[], []⟩ "dev" 1765 3 (some [5, 6, 7])).2 = ⟨[], []⟩
    ∧ ((handleFetchPayload
          ⟨[("dev", { name := "A", remote_ip := 1, conn_id := 0, tx := 2, plugin_repo := 3 })], 1⟩
          ⟨[], []⟩ "dev" 1765 3 (some [5, 6, 7])).1 = Except.ok [5, 6, 7]
        ↔ ([5, 6, 7] : List Nat).length = 3) :=
  ⟨(fetch_payload_length_check _ ⟨[], []⟩ "dev" 1765 3 (some [5, 6, 7]) (by decide)).1,
   (fetch_payload_length_check _ ⟨[], []⟩ "dev" 1765 3 (some [5, 6, 7]) (by decide)).2.1
     [5, 6, 7] rfl⟩

/-! ## TLS verifiers (src/kdeconnect/src/tls.rs) and the server factory
(src/kdeconnect/src/main.rs, `server_config`)

The server factory installs `tls::ClientVerifier::AlwaysOk` as the client
certificate verifier.  A certificate is an opaque DER blob; `parseOk` records
whether `x509_signature::parse_certificate` succeeds on it (`get_cert`), and
`checkOk` below records whether `check_signature` / `check_tls13_signature`
accepts the handshake-transcript signature under the presented public key
(external crypto). -/

/-- Source `rustls::SignatureScheme` (the variants matched in `convert_scheme`). -/
inductive RScheme where
  | RSA_PKCS1_SHA256
  | ECDSA_NISTP256_SHA256
  | RSA_PKCS1_SHA384
  | ECDSA_NISTP384_SHA384
  | RSA_PKCS1_SHA512
  | RSA_PSS_SHA256
  | RSA_PSS_SHA384
  | RSA_PSS_SHA512
  | ED25519
  | ED448
  | RSA_PKCS1_SHA1
  | ECDSA_SHA1_Legacy
  | ECDSA_NISTP521_SHA512
  | Unknown (code : Nat)
  deriving Repr, DecidableEq

/-- Source `x509_signature::SignatureScheme`. -/
inductive XScheme where
  | RSA_PKCS1_SHA256
  | ECDSA_NISTP256_SHA256
  | RSA_PKCS1_SHA384
  | ECDSA_NISTP384_SHA384
  | RSA_PKCS1_SHA512
  | RSA_PSS_SHA256
  | RSA_PSS_SHA384
  | RSA_PSS_SHA512
  | ED25519
  | ED448
  deriving Repr, DecidableEq

/-- Source `rustls::Error` variants produced in tls.rs. -/
inductive TlsErr where
  | invalidCertificateData
  | peerIncompatibleError
  | invalidCertificateSignature
  deriving Repr, DecidableEq

/-- Source `convert_scheme`. -/
def convert_scheme : RScheme → Except TlsErr XScheme
  | RScheme.RSA_PKCS1_SHA256 => Except.ok XScheme.RSA_PKCS1_SHA256
  | RScheme.ECDSA_NISTP256_SHA256 => Except.ok XScheme.ECDSA_NISTP256_SHA256
  | RScheme.RSA_PKCS1_SHA384 => Except.ok XScheme.RSA_PKCS1_SHA384
  | RScheme.ECDSA_NISTP384_SHA384 => Except.ok XScheme.ECDSA_NISTP384_SHA384
  | RScheme.RSA_PKCS1_SHA512 => Except.ok XScheme.RSA_PKCS1_SHA512
  | RScheme.RSA_PSS_SHA256 => Except.ok XScheme.RSA_PSS_SHA256
  | RScheme.RSA_PSS_SHA384 => Except.ok XScheme.RSA_PSS_SHA384
  | RScheme.RSA_PSS_SHA512 => Except.ok XScheme.RSA_PSS_SHA512
  | RScheme.ED25519 => Except.ok XScheme.ED25519
  | RScheme.ED448 => Except.ok XScheme.ED448
  | RScheme.RSA_PKCS1_SHA1 => Except.error TlsErr.peerIncompatibleError
  | RScheme.ECDSA_SHA1_Legacy => Except.error TlsErr.peerIncompatibleError
  | RScheme.ECDSA_NISTP521_SHA512 => Except.error TlsErr.peerIncompatibleError
  | RScheme.Unknown _ => Except.error TlsErr.peerIncompatibleError

/-- A peer certificate: `parseOk` is whether
`x509_signature::parse_certificate` succeeds on its DER bytes. -/
structure Certificate where
  parseOk : Bool
  deriving Repr, DecidableEq

/-- Source `get_cert`. -/
def get_cert (c : Certificate) : Except TlsErr Unit :=
  if c.parseOk then Except.ok () else Except.error TlsErr.invalidCertificateData

/-- Source `ClientVerifier::offer_client_auth`. -/
def ClientVerifier.offer_client_auth : Bool := true

/-- Source `ClientVerifier::client_auth_mandatory`. -/
def ClientVerifier.client_auth_mandatory : Option Bool := some false

/-- Source `ClientVerifier::verify_client_cert`: parse the end-entity certificate;
accept iff it parses. -/
def ClientVerifier.verify_client_cert (c : Certificate) : Except TlsErr Unit :=
  match get_cert c with
  | Except.ok _ => Except.ok ()
  | Except.error e => Except.error e

/-- Source `ClientVerifier::verify_tls12_signature` / `verify_tls13_signature`:
parse the certificate, convert the scheme, then check the transcript
signature (`checkOk` is the external `check_signature` outcome). -/
def ClientVerifier.verify_tls_signature (c : Certificate) (scheme : RScheme)
    (checkOk : Bool) : Except TlsErr Unit :=
  match get_cert c with
  | Except.error e => Except.error e
  | Except.ok _ =>
    match convert_scheme scheme with
    | Except.error e => Except.error e
    | Except.ok _ =>
      if checkOk then Except.ok ()
      else Except.error TlsErr.invalidCertificateSignature

/-- The rustls server handshake, as driven by the installed verifier
(rustls 0.20 `ClientCertVerifier` contract): client auth is offered when
`offer_client_auth`; a client that presents no certificate is rejected only
when `client_auth_mandatory` resolves to `true`; a presented certificate must
pass `verify_client_cert` and the handshake-signature verification. -/
def serverHandshakeAccepts (clientCert : Option Certificate) (scheme : RScheme)
    (checkOk : Bool) : Bool :=
  match clientCert with
  | none =>
    !(ClientVerifier.client_auth_mandatory.getD ClientVerifier.offer_client_auth)
  | some c =>
    (ClientVerifier.verify_client_cert c).isOk
      && (ClientVerifier.verify_tls_signature c scheme checkOk).isOk

/-- C6 counterexample: the server configuration does not demand a client
certificate — a handshake in which the client presents none is accepted,
because `client_auth_mandatory` returns `Some(false)`. -/
theorem server_accepts_certless_client :
    serverHandshakeAccepts none RScheme.RSA_PKCS1_SHA256 true = true
    ∧ (none : Option Certificate).isSome = false
    ∧ ClientVerifier.client_auth_mandatory = some false := ⟨rfl, rfl, rfl⟩

/-- C6 amended: the server TLS factory requests client certificates
(`offer_client_auth = true`) but does not require them
(`client_auth_mandatory = Some(false)`): a handshake without a client
certificate is accepted; and any presented certificate is accepted exactly
when it is well-formed (parseable) and its handshake signature verifies under
a supported signature scheme. -/
theorem server_client_cert_policy (c : Certificate) (scheme : RScheme) (checkOk : Bool) :
    ClientVerifier.offer_client_auth = true
    ∧ ClientVerifier.client_auth_mandatory = some false
    ∧ (∀ chk : Bool, ∀ s : RScheme, serverHandshakeAccepts none s chk = true)
    ∧ (serverHandshakeAccepts (some c) scheme checkOk = true
        ↔ c.parseOk = true ∧ (convert_scheme scheme).isOk = true ∧ checkOk = true) := by
  refine ⟨rfl, rfl, fun _ _ => rfl, ?_⟩
  cases hp : c.parseOk <;>
    cases hs : convert_scheme scheme <;>
      cases checkOk <;>
        simp [serverHandshakeAccepts, ClientVerifier.verify_client_cert,
          ClientVerifier.verify_tls_signature, get_cert, hp, hs, Except.isOk, Except.toBool]

/-- C6 amended witness: a parseable certificate with a valid signature under
RSA-PKCS1-SHA256 is accepted. -/
theorem server_client_cert_policy_witness :
    ClientVerifier.offer_client_auth = true
    ∧ ClientVerifier.client_auth_mandatory = some false
    ∧ (∀ chk : Bool, ∀ s : RScheme, serverHandshakeAccepts none s chk = true)
    ∧ (serverHandshakeAccepts (some ⟨true⟩) RScheme.RSA_PKCS1_SHA256 true = true
        ↔ (⟨true⟩ : Certificate).parseOk = true
          ∧ (convert_scheme RScheme.RSA_PKCS1_SHA256).isOk = true ∧ (true : Bool) = true) :=
  server_client_cert_policy ⟨true⟩ RScheme.RSA_PKCS1_SHA256 true

/-! ## Main TCP listener port selection (src/kdeconnect/src/main.rs,
`open_tcp_server`)

`bind p` models `TcpListener::bind((0.0.0.0, p))`: `ok` when the port is
free, `error e` (an io error token) when it is busy. -/

/-- The probe loop body: try each port in order, remembering the last error;
return the first successful port, or the final `last_error` if every bind
fails (the source unwraps it, which is safe since the range is non-empty). -/
def probePorts (bind : Nat → Except Nat Unit) :
    List Nat → Option Nat → Except (Option Nat) Nat
  | [], lastError => Except.error lastError
  | port :: rest, lastError =>
    match bind port with
    | Except.ok _ => Except.ok port
    | Except.error e => probePorts bind rest (some e)

/-- Source `open_tcp_server`: probe ports `1716..=1764` in increasing order. -/
def open_tcp_server (bind : Nat → Except Nat Unit) : Except (Option Nat) Nat :=
  probePorts bind (List.range' 1716 49) none

theorem probePorts_first_ok (bind : Nat → Except Nat Unit) (ports : List Nat)
    (q : Nat) (rest : List Nat) (le : Option Nat)
    (hfail : ∀ p ∈ ports, ∃ er, bind p = Except.error er) (hok : bind q = Except.ok ()) :
    probePorts bind (ports ++ q :: rest) le = Except.ok q := by
  revert hfail
  induction ports generalizing le with
  | nil => intro _; simp [probePorts, hok]
  | cons p t ih =>
    intro hfail
    obtain ⟨er, her⟩ := hfail p (List.mem_cons_self p t)
    rw [List.cons_append, probePorts, her]
    exact ih _ (fun x hx => hfail x (List.mem_cons_of_mem p hx))

theorem probePorts_all_fail (bind : Nat → Except Nat Unit) (ports : List Nat)
    (q e : Nat) (le : Option Nat)
    (hfail : ∀ p ∈ ports, ∃ er, bind p = Except.error er) (hq : bind q = Except.error e) :
    probePorts bind (ports ++ [q]) le = Except.error (some e) := by
  revert hfail
  induction ports generalizing le with
  | nil => intro _; simp [probePorts, hq]
  | cons p t ih =>
    intro hfail
    obtain ⟨er, her⟩ := hfail p (List.mem_cons_self p t)
    rw [List.cons_append, probePorts, her]
    exact ih _ (fun x hx => hfail x (List.mem_cons_of_mem p hx))

/-- C7 (listener port selection): `open_tcp_server` returns the first port of
`1716..=1764` that binds successfully — in particular 1716 when it is free,
and 1764 when `1716..=1763` are all busy and 1764 is free — and when every
port in the range fails to bind, it returns the last bind error (the one from
port 1764). -/
theorem listener_port_selection (bind : Nat → Except Nat Unit) :
    (∀ q, 1716 ≤ q → q ≤ 1764 → bind q = Except.ok () →
        (∀ p, 1716 ≤ p → p < q → ∃ e, bind p = Except.error e) →
        open_tcp_server bind = Except.ok q)
    ∧ (∀ e, (∀ p, 1716 ≤ p → p < 1764 → ∃ er, bind p = Except.error er) →
        bind 1764 = Except.error e →
        open_tcp_server bind = Except.error (some e)) := by
  constructor
  · intro q hq1 hq2 hok hbelow
    obtain ⟨a, rfl⟩ : ∃ a, q = 1716 + a := ⟨q - 1716, by omega⟩
    have key : List.range' 1716 49 =
        List.range' 1716 a ++ ((1716 + a) :: List.range' (1716 + a + 1) (48 - a)) := by
      have h := List.range'_append 1716 a (49 - a) 1
      rw [Nat.one_mul, show (49 - a) + a = 49 from by omega] at h
      rw [← h, show (49 - a) = (48 - a) + 1 from by omega, List.range'_succ]
    rw [open_tcp_server, key]
    exact probePorts_first_ok bind _ _ _ none
      (fun p hp => by
        have := List.mem_range'_1.mp hp
        exact hbelow p this.1 (by omega))
      hok
  · intro e hfail h1764
    have key : List.range' 1716 49 = List.range' 1716 48 ++ [1764] := by
      have h := @List.range'_concat 1 1716 48
      rw [Nat.one_mul] at h
      exact h
    rw [open_tcp_server, key]
    exact probePorts_all_fail bind _ _ _ none
      (fun p hp => by
        have := List.mem_range'_1.mp hp
        exact hfail p this.1 (by omega))
      h1764

/-- C7 witness: 1716 and 1717 busy, 1718 free — the listener lands on 1718;
with every port busy (always-failing bind returning error token 9), the result
is the last error. -/
theorem listener_port_selection_witness :
    open_tcp_server
        (fun p => if p < 1718 then Except.error 0 else Except.ok ()) = Except.ok 1718
    ∧ open_tcp_server (fun _ => Except.error 9) = Except.error (some 9) :=
  ⟨(listener_port_selection _).1 1718 (by decide) (by decide) (by norm_num)
      (fun p h1 h2 => ⟨0, by simp [show p < 1718 from h2]⟩),
   (listener_port_selection _).2 9 (fun p _ _ => ⟨9, rfl⟩) rfl⟩

/-! ## Config persistence (src/kdeconnect/src/config.rs)

`Config::save` converts to `EncodedConfig` (base64-encoding the key and cert
DER buffers with the `base64` crate's standard alphabet and `=` padding) and
writes it as JSON; `Config::load` parses the JSON and base64-decodes.  The
`serde_json` writer/reader pair is an external collaborator that round-trips
a three-string struct verbatim, so the file contents are modelled as the
`EncodedConfig` value itself; the base64 codec is modelled in full. -/

def base64Alphabet : List Char :=
  ['A', 'B', 'C', 'D', 'E', 'F', 'G', 'H', 'I', 'J', 'K', 'L', 'M',
   'N', 'O', 'P', 'Q', 'R', 'S', 'T', 'U', 'V', 'W', 'X', 'Y', 'Z',
   'a', 'b', 'c', 'd', 'e', 'f', 'g', 'h', 'i', 'j', 'k', 'l', 'm',
   'n', 'o', 'p', 'q', 'r', 's', 't', 'u', 'v', 'w', 'x', 'y', 'z',
   '0', '1', '2', '3', '4', '5', '6', '7', '8', '9', '+', '/']

def sextetToChar (n : Nat) : Char := base64Alphabet.getD n '?'

def charToSextet (c : Char) : Option Nat := base64Alphabet.findIdx? (fun x => x == c)

/-- Source `base64::encode` (standard alphabet, padded), on byte lists. -/
def b64EncodeBytes : List Nat → List Char
  | [] => []
  | [a] => [sextetToChar (a / 4), sextetToChar (a % 4 * 16), '=', '=']
  | [a, b] => [sextetToChar (a / 4), sextetToChar (a % 4 * 16 + b / 16),
               sextetToChar (b % 16 * 4), '=']
  | a :: b :: c :: rest =>
    sextetToChar (a / 4) :: sextetToChar (a % 4 * 16 + b / 16) ::
      sextetToChar (b % 16 * 4 + c / 64) :: sextetToChar (c % 64) :: b64EncodeBytes rest

/-- Source `base64::decode` (standard alphabet, strict padding), on byte lists. -/
def b64DecodeBytes : List Char → Option (List Nat)
  | [] => some []
  | c1 :: c2 :: c3 :: c4 :: rest =>
    match charToSextet c1, charToSextet c2 with
    | some s1, some s2 =>
      if c3 = '=' then
        if c4 = '=' ∧ rest = [] then some [s1 * 4 + s2 / 16] else none
      else
        match charToSextet c3 with
        | some s3 =>
          if c4 = '=' then
            if rest = [] then some [s1 * 4 + s2 / 16, s2 % 16 * 16 + s3 / 4] else none
          else
            match charToSextet c4 with
            | some s4 =>
              (b64DecodeBytes rest).map (fun tail =>
                (s1 * 4 + s2 / 16) :: (s2 % 16 * 16 + s3 / 4) :: (s3 % 4 * 64 + s4) :: tail)
            | none => none
        | none => none
    | _, _ => none
  | _ => none

theorem charToSextet_sextetToChar : ∀ n : Nat, n < 64 →
    charToSextet (sextetToChar n) = some n := by decide

theorem sextetToChar_ne_pad : ∀ n : Nat, n < 64 → sextetToChar n ≠ '=' := by decide

theorem b64_decode_encode (bs : List Nat) (h : ∀ b ∈ bs, b < 256) :
    b64DecodeBytes (b64EncodeBytes bs) = some bs := by
  revert h
  induction bs using b64EncodeBytes.induct with
  | case1 => intro _; rfl
  | case2 a =>
    intro h
    have ha : a < 256 := h a (by simp)
    have h1 := charToSextet_sextetToChar (a / 4) (by omega)
    have h2 := charToSextet_sextetToChar (a % 4 * 16) (by omega)
    have e1 : a / 4 * 4 + a % 4 * 16 / 16 = a := by omega
    simp [b64EncodeBytes, b64DecodeBytes, h1, h2, e1]
    omega
  | case3 a b =>
    intro h
    have ha : a < 256 := h a (by simp)
    have hb : b < 256 := h b (by simp)
    have h1 := charToSextet_sextetToChar (a / 4) (by omega)
    have h2 := charToSextet_sextetToChar (a % 4 * 16 + b / 16) (by omega)
    have h3 := charToSextet_sextetToChar (b % 16 * 4) (by omega)
    have hne3 := sextetToChar_ne_pad (b % 16 * 4) (by omega)
    have e1 : a / 4 * 4 + (a % 4 * 16 + b / 16) / 16 = a := by omega
    have e2 : (a % 4 * 16 + b / 16) % 16 * 16 + b % 16 * 4 / 4 = b := by omega
    simp [b64EncodeBytes, b64DecodeBytes, h1, h2, h3, hne3, e1, e2]
    omega
  | case4 a b c rest ih =>
    intro h
    have ha : a < 256 := h a (by simp)
    have hb : b < 256 := h b (by simp)
    have hc : c < 256 := h c (by simp)
    have ih' := ih (fun x hx => h x (by simp [hx]))
    have h1 := charToSextet_sextetToChar (a / 4) (by omega)
    have h2 := charToSextet_sextetToChar (a % 4 * 16 + b / 16) (by omega)
    have h3 := charToSextet_sextetToChar (b % 16 * 4 + c / 64) (by omega)
    have h4 := charToSextet_sextetToChar (c % 64) (by omega)
    have hne3 := sextetToChar_ne_pad (b % 16 * 4 + c / 64) (by omega)
    have hne4 := sextetToChar_ne_pad (c % 64) (by omega)
    have e1 : a / 4 * 4 + (a % 4 * 16 + b / 16) / 16 = a := by omega
    have e2 : (a % 4 * 16 + b / 16) % 16 * 16 + (b % 16 * 4 + c / 64) / 4 = b := by omega
    have e3 : (b % 16 * 4 + c / 64) % 4 * 64 + c % 64 = c := by omega
    simp [b64EncodeBytes, b64DecodeBytes, h1, h2, h3, h4, hne3, hne4, ih', e1, e2, e3]

/-- Source `Config`: UUID plus the DER bytes of the TLS key and certificate. -/
structure Config where
  uuid : String
  tls_key : List Nat
  tls_cert : List Nat
  deriving Repr, DecidableEq

/-- Source `EncodedConfig`: the on-disk form (all three fields strings; the key and
cert base64-encoded). -/
structure EncodedConfig where
  uuid : String
  tls_key : List Char
  tls_cert : List Char
  deriving Repr, DecidableEq

/-- Source `EncodedConfig::from(&Config)`. -/
def encodedConfigFrom (c : Config) : EncodedConfig :=
  { uuid := c.uuid,
    tls_key := b64EncodeBytes c.tls_key,
    tls_cert := b64EncodeBytes c.tls_cert }

/-- Source `Config::try_from(EncodedConfig)`: base64-decode both buffers, failing if
either decode fails. -/
def configTryFrom (e : EncodedConfig) : Option Config :=
  match b64DecodeBytes e.tls_key, b64DecodeBytes e.tls_cert with
  | some k, some c => some { uuid := e.uuid, tls_key := k, tls_cert := c }
  | _, _ => none

/-- Source `Config::save`: the JSON file contents, as the `EncodedConfig` record. -/
def Config.save (c : Config) : EncodedConfig := encodedConfigFrom c

/-- Source `Config::load` from saved file contents. -/
def Config.load (file : EncodedConfig) : Option Config := configTryFrom file

/-- C8 (config round-trip): for every config whose key and cert are byte
buffers (elements < 256), `save` then `load` returns a config whose `uuid`
string and `tls_key`/`tls_cert` byte vectors equal the originals. -/
theorem config_save_load_roundtrip (c : Config)
    (hk : ∀ b ∈ c.tls_key, b < 256) (hc : ∀ b ∈ c.tls_cert, b < 256) :
    Config.load (Config.save c) = some c := by
  rw [Config.load, Config.save, configTryFrom.eq_def, encodedConfigFrom]
  simp only [b64_decode_encode c.tls_key hk, b64_decode_encode c.tls_cert hc]

/-- C8 witness: a concrete config round-trips. -/
theorem config_save_load_roundtrip_witness :
    Config.load (Config.save ⟨"3c2f", [0, 255, 17], [1, 2]⟩) = some ⟨"3c2f", [0, 255, 17], [1, 2]⟩ :=
  config_save_load_roundtrip ⟨"3c2f", [0, 255, 17], [1, 2]⟩ (by decide) (by decide)

end KdeconnectRs
